import Mathlib

/-!
Shallow embedding of the lottery drawing engine of `src/shift/shift.ts`
(TeleBox_Plugins).  The SQLite tables become Lean lists of rows, each SQL
statement becomes an explicit function on the state, and the stateful
TypeScript functions become state-passing Lean functions.  Machine integers
(SQLite INTEGER columns, JS numbers used as integers) are modelled as `Int`;
row ids and list positions as `Nat`; TEXT columns as `String`.
`Math.random()`-driven choices are passed in as an explicit choice function,
and external message-delivery outcomes as an explicit predicate, so every
definition is executable and every run is deterministic in its inputs.
-/

namespace Shift

/-- `enum PrizeStatus` of shift.ts: `sent` / `pending` / `expired`. -/
inductive PrizeStatus where
  | sent
  | pending
  | expired
deriving DecidableEq, Repr

/-- `enum LotteryMode` of shift.ts: `manual` / `auto`. -/
inductive LotteryMode where
  | manual
  | auto
deriving DecidableEq, Repr

/-- `enum DistributionMode` of shift.ts: `claim` / `auto` (AUTO_SEND). -/
inductive DistributionMode where
  | claim
  | autoSend
deriving DecidableEq, Repr

/-- Status column of `lottery_config`: `'active'` / `'completed'`. -/
inductive LotteryStatus where
  | active
  | completed
deriving DecidableEq, Repr

/-- A row of the `lottery_config` table (columns that the engine reads). -/
structure LotteryRow where
  id : Nat
  chatId : String
  title : String
  keyword : String
  maxParticipants : Int
  winnerCount : Int
  mode : LotteryMode
  distributionMode : DistributionMode
  claimTimeout : Int
  requireAvatar : Bool
  requireUsername : Bool
  requiredChannel : Option String
  warehouse : String
  allowBots : Bool
  createdAt : Int
  status : LotteryStatus
  creatorId : String
deriving DecidableEq, Repr

/-- A row of the `lottery_participants` table (the columns the engine
reads back: the UNIQUE key `(lottery_id, user_id)`; the display-metadata
columns `username` / `first_name` / `last_name` / `joined_at` are write-only
for the logic modelled here and are omitted). -/
structure Participant where
  lotteryId : Nat
  userId : String
deriving DecidableEq, Repr

/-- A row of the `lottery_winners` table. -/
structure WinnerRecord where
  lotteryId : Nat
  userId : String
  prizeText : String
  status : PrizeStatus
  assignedAt : Int
  claimedAt : Option Int
  expiresAt : Int
deriving DecidableEq, Repr

/-- A row of the `prize_warehouse` table. -/
structure PrizeItem where
  id : Nat
  warehouse : String
  text : String
  stock : Int
  orderIndex : Int
deriving DecidableEq, Repr

/-- The whole SQLite database, one list per table, in rowid (insertion)
order. -/
structure DB where
  lotteries : List LotteryRow
  participants : List Participant
  winners : List WinnerRecord
  prizes : List PrizeItem
deriving DecidableEq, Repr

/-- `SELECT COUNT(*) FROM lottery_participants WHERE lottery_id = ?`. -/
def countParticipants (db : DB) (lid : Nat) : Nat :=
  (db.participants.filter (fun p => p.lotteryId == lid)).length

/-- `getLotteryParticipants`: `SELECT * FROM lottery_participants WHERE
lottery_id = ? ORDER BY joined_at`.  Rows are inserted with a monotone
`joined_at`, so the ordering coincides with insertion order. -/
def getLotteryParticipants (db : DB) (lid : Nat) : List Participant :=
  db.participants.filter (fun p => p.lotteryId == lid)

/-- The rows of `lottery_winners` belonging to one lottery. -/
def winnersOf (db : DB) (lid : Nat) : List WinnerRecord :=
  db.winners.filter (fun w => w.lotteryId == lid)

/-- `SELECT max_participants FROM lottery_config WHERE id = ?` (ids are the
primary key, so the first matching row is the row). -/
def findLottery (db : DB) (lid : Nat) : Option LotteryRow :=
  db.lotteries.find? (fun l => l.id == lid)

/-- The two `throw new Error(...)` sites inside the admission transaction of
`addParticipantToLottery`: `"Lottery full or not found"` and
`"User already participated"`. -/
inductive AdmitError where
  | fullOrNotFound
  | duplicate
deriving DecidableEq, Repr

/-- The body of the `db.transaction(() => ...)` closure of
`addParticipantToLottery` (shift.ts:1398-1439): count the lottery's
participants, fetch `max_participants`, reject when the lottery is missing
or `count >= max_participants`, reject when `(lottery_id, user_id)` is
already present, otherwise insert the new participant row. -/
def admitTx (db : DB) (lid : Nat) (userId : String) : Except AdmitError DB :=
  let currentCount := countParticipants db lid
  match findLottery db lid with
  | none => .error .fullOrNotFound
  | some lot =>
    if (currentCount : Int) ≥ lot.maxParticipants then .error .fullOrNotFound
    else if db.participants.any (fun p => p.lotteryId == lid && p.userId == userId) then
      .error .duplicate
    else
      .ok { db with participants := db.participants ++ [⟨lid, userId⟩] }

/-- `addParticipantToLottery`: runs the admission transaction, catches the
thrown error and collapses it to `false` (the transaction rolls back, so the
state is unchanged); returns `true` after a successful insert. -/
def addParticipantToLottery (db : DB) (lid : Nat) (userId : String) : Bool × DB :=
  match admitTx db lid userId with
  | .error _ => (false, db)
  | .ok db1 => (true, db1)

/-- One step of scanning for the row with the least `order_index`: keep the
earlier row on ties (scan order). -/
def prizeMinStep (acc : Option PrizeItem) (p : PrizeItem) : Option PrizeItem :=
  match acc with
  | none => some p
  | some q => if p.orderIndex < q.orderIndex then some p else acc

/-- `getNextAvailablePrize`: `SELECT * FROM prize_warehouse WHERE
warehouse_name = ? AND stock_count > 0 ORDER BY order_index LIMIT 1` — the
first row in ascending `order_index` among the warehouse's rows with
positive stock, scan (insertion) order breaking ties. -/
def getNextAvailablePrize (prizes : List PrizeItem) (w : String) : Option PrizeItem :=
  (prizes.filter (fun p => p.warehouse == w && p.stock > 0)).foldl prizeMinStep none

/-- `consumePrize`: `UPDATE prize_warehouse SET stock_count = stock_count - 1
WHERE id = ? AND stock_count > 0`; returns whether any row changed. -/
def consumePrize (db : DB) (pid : Nat) : Bool × DB :=
  let changed := db.prizes.any (fun p => p.id == pid && p.stock > 0)
  (changed,
    { db with prizes := db.prizes.map (fun p =>
        if p.id == pid && p.stock > 0 then { p with stock := p.stock - 1 } else p) })

/-- The generic fallback prize text `"恭喜中奖！"` used by `distributePrizes`
when the warehouse has no available item. -/
def fallbackPrizeText : String := "恭喜中奖！"

/-- One iteration of the `for (const winner of winners)` loop inside the
`distributePrizes` transaction (shift.ts:1646-1746): look up the next
available prize, insert a `pending` winner record carrying either the
prize's text or the fallback text, with `expires_at = now + claim_timeout *
1000`, then consume one unit of the chosen prize's stock. -/
def distributeStep (lot : LotteryRow) (now : Int) (db : DB) (u : String) : DB :=
  let prize := getNextAvailablePrize db.prizes lot.warehouse
  let prizeText := match prize with
    | some p => p.text
    | none => fallbackPrizeText
  let rec1 : WinnerRecord :=
    ⟨lot.id, u, prizeText, .pending, now, none, now + lot.claimTimeout * 1000⟩
  let db1 := { db with winners := db.winners ++ [rec1] }
  match prize with
  | some p => (consumePrize db1 p.id).2
  | none => db1

/-- The `distributePrizes` transaction: the per-winner loop, in the draw
engine's winner order. -/
def distributePrizes (db : DB) (lot : LotteryRow) (winners : List Participant)
    (now : Int) : DB :=
  winners.foldl (fun acc wr => distributeStep lot now acc wr.userId) db

/-- The status update inside `sendPrizeToWinner` (shift.ts:1787-1792),
executed only when the direct message was delivered: `UPDATE lottery_winners
SET status = 'sent', claimed_at = ? WHERE lottery_id = ? AND user_id = ?`. -/
def markSentByUser (db : DB) (lid : Nat) (uid : String) (now : Int) : DB :=
  { db with winners := db.winners.map (fun w =>
      if w.lotteryId == lid && w.userId == uid then
        { w with status := .sent, claimedAt := some now }
      else w) }

/-- The auto-send pass after the `distributePrizes` transaction: when the
lottery's distribution mode is AUTO_SEND, each winner is messaged and — on
delivery success — their record is marked `sent`.  `delivered` tells which
direct messages the external transport accepts; a failed send leaves the
record untouched (`sendPrizeToWinner` returns `false` without updating). -/
def autoSendPass (db : DB) (lot : LotteryRow) (winners : List Participant)
    (delivered : String → Bool) (now : Int) : DB :=
  winners.foldl (fun acc wr =>
    if delivered wr.userId then markSentByUser acc lot.id wr.userId now else acc) db

/-- `updateWinnerStatusByUser` (shift.ts:1609-1619): `UPDATE lottery_winners
SET status = ?, claimed_at = ? WHERE lottery_id = ? AND user_id = ?`;
returns whether any row changed.  Note: no guard on the current status. -/
def updateWinnerStatusByUser (db : DB) (lid : Nat) (uid : String)
    (status : PrizeStatus) (claimedAt : Int) : Bool × DB :=
  let changed := db.winners.any (fun w => w.lotteryId == lid && w.userId == uid)
  (changed,
    { db with winners := db.winners.map (fun w =>
        if w.lotteryId == lid && w.userId == uid then
          { w with status := status, claimedAt := some claimedAt }
        else w) })

/-- `expireOldClaims` (shift.ts:1634-1643): `UPDATE lottery_winners SET
status = 'expired' WHERE status = 'pending' AND expires_at < ?` with the
current time. -/
def expireOldClaims (db : DB) (now : Int) : DB :=
  { db with winners := db.winners.map (fun w =>
      if w.status == .pending && w.expiresAt < now then
        { w with status := .expired }
      else w) }

/-- `UPDATE lottery_config SET status = 'completed' WHERE id = ?`. -/
def completeLottery (db : DB) (lid : Nat) : DB :=
  { db with lotteries := db.lotteries.map (fun l =>
      if l.id == lid then { l with status := .completed } else l) }

/-- One swap `[shuffled[i], shuffled[j]] = [shuffled[j], shuffled[i]]` of the
Fisher-Yates loop; out-of-range indices leave the list unchanged (the loop
never produces them, but this keeps the function total). -/
def listSwap (l : List α) (i j : Nat) : List α :=
  match l[i]?, l[j]? with
  | some a, some b => (l.set i b).set j a
  | _, _ => l

/-- The Fisher-Yates loop of `performLotteryDraw` (shift.ts:1851-1854),
running `i` from the current value down to `1`; at index `i` the partner is
`j = Math.floor(Math.random() * (i + 1))`, i.e. an arbitrary value in
`[0, i]`, modelled as `choice i % (i + 1)` for an arbitrary choice
function. -/
def fyLoop (choice : Nat → Nat) : List α → Nat → List α
  | l, 0 => l
  | l, i + 1 => fyLoop choice (listSwap l (i + 1) (choice (i + 1) % (i + 2))) i

/-- The full Fisher-Yates shuffle `shuffled` of `performLotteryDraw`. -/
def fisherYates (choice : Nat → Nat) (l : List α) : List α :=
  fyLoop choice l (l.length - 1)

/-- `shuffled.slice(0, k)` for a JS number `k`: a negative end index counts
from the end of the array (`max(length + k, 0)`). -/
def jsSliceTo (l : List α) (k : Int) : List α :=
  if 0 ≤ k then l.take k.toNat else l.take (l.length - (-k).toNat)

/-- What a `performLotteryDraw` call reports: the zero-participant branch
(the "no users participated" announcement) or a drawn winner list. -/
inductive DrawOutcome where
  | empty
  | drawn (winners : List Participant)
deriving DecidableEq, Repr

/-- `performLotteryDraw` (shift.ts:1831-1911).  Note that the function never
reads the lottery's stored status: it loads the participants, and if there
are none it announces an empty draw and marks the lottery completed;
otherwise it clamps the winner count, shuffles, distributes prizes (followed
by the auto-send pass when the distribution mode is AUTO_SEND), and marks
the lottery completed. -/
def performLotteryDraw (db : DB) (lot : LotteryRow) (choice : Nat → Nat)
    (delivered : String → Bool) (now : Int) : DrawOutcome × DB :=
  let ps := getLotteryParticipants db lot.id
  if ps.isEmpty then
    (.empty, completeLottery db lot.id)
  else
    let k : Int := min lot.winnerCount (ps.length : Int)
    let winners := jsSliceTo (fisherYates choice ps) k
    let db1 := distributePrizes db lot winners now
    let db2 :=
      if lot.distributionMode == .autoSend then
        autoSendPass db1 lot winners delivered now
      else db1
    (.drawn winners, completeLottery db2 lot.id)

/-- `getActiveLottery`: `SELECT * FROM lottery_config WHERE chat_id = ? AND
status = 'active' ORDER BY created_at DESC LIMIT 1` — the first row in scan
order among those with the strictly greatest `created_at`. -/
def getActiveLottery (db : DB) (chat : String) : Option LotteryRow :=
  (db.lotteries.filter (fun l => l.chatId == chat && l.status == .active)).foldl
    (fun acc l =>
      match acc with
      | none => some l
      | some b => if l.createdAt > b.createdAt then some l else acc)
    none

/-- What the `lottery draw` subcommand (shift.ts:2561-2580) reports. -/
inductive DrawCmdResult where
  | noActiveLottery
  | drew (outcome : DrawOutcome)
deriving DecidableEq, Repr

/-- The `lottery draw` subcommand: look up the chat's active lottery; if
none, answer with the "no lottery in progress" failure; otherwise invoke
`performLotteryDraw` on it. -/
def drawCommand (db : DB) (chat : String) (choice : Nat → Nat)
    (delivered : String → Bool) (now : Int) : DrawCmdResult × DB :=
  match getActiveLottery db chat with
  | none => (.noActiveLottery, db)
  | some lot =>
    let r := performLotteryDraw db lot choice delivered now
    (.drew r.1, r.2)

/-- The `lottery claim` subcommand's state change (shift.ts:2935-2948):
mark the target user's winner record of the chat's active lottery as
`sent`. -/
def claimCommand (db : DB) (chat : String) (uid : String) (now : Int) :
    Bool × DB :=
  match getActiveLottery db chat with
  | none => (false, db)
  | some lot => updateWinnerStatusByUser db lot.id uid .sent now

/-- What the engine reads of a message sender: the id and the outcomes of
the external eligibility lookups of `validateUserConditions` (bot flag,
avatar, username, membership in the lottery's required channel). -/
structure Sender where
  id : String
  bot : Bool
  hasAvatar : Bool
  hasUsername : Bool
  inRequiredChannel : Bool
deriving DecidableEq, Repr

/-- `validateUserConditions` (shift.ts:1550-1595): bots are rejected unless
allowed; then the avatar, username and required-channel requirements are
checked in turn; the external lookup outcomes arrive through `Sender`. -/
def validateUserConditions (lot : LotteryRow) (u : Sender) : Bool :=
  if !lot.allowBots && u.bot then false
  else if lot.requireAvatar && !u.hasAvatar then false
  else if lot.requireUsername && !u.hasUsername then false
  else if lot.requiredChannel.isSome && !u.inRequiredChannel then false
  else true

/-- The observable reaction of `handleEnhancedLotteryJoin` to one incoming
message: nothing at all; the "您已参加过抽奖" repeat-join warning reply; the
silent deletion of the join message; or the "参与成功" confirmation reply
carrying the new participant count (with the flag telling whether the
capacity-triggered draw ran). -/
inductive JoinEffect where
  | noEffect
  | warnRepeatJoin
  | deleteMsg
  | confirmJoin (count : Nat) (drew : Bool)
deriving DecidableEq, Repr

/-- `handleEnhancedLotteryJoin` (shift.ts:1914-2024): on a keyword match for
the chat's active lottery, a non-bot sender is warned when already a
participant, silently deleted when ineligible, silently ignored when the
admission transaction rejects (full lottery), and otherwise admitted and
answered with the confirmation; reaching `maxParticipants` triggers the
draw. -/
def handleEnhancedLotteryJoin (db : DB) (chat : String) (text : String)
    (sender : Sender) (choice : Nat → Nat) (delivered : String → Bool)
    (now : Int) : JoinEffect × DB :=
  match getActiveLottery db chat with
  | none => (.noEffect, db)
  | some lot =>
    if text ≠ lot.keyword then (.noEffect, db)
    else if sender.bot then (.noEffect, db)
    else if (getLotteryParticipants db lot.id).any (fun p => p.userId == sender.id) then
      (.warnRepeatJoin, db)
    else if !validateUserConditions lot sender then (.deleteMsg, db)
    else
      let r := addParticipantToLottery db lot.id sender.id
      if !r.1 then (.noEffect, r.2)
      else
        let cnt := countParticipants r.2 lot.id
        if (cnt : Int) ≥ lot.maxParticipants then
          let d := performLotteryDraw r.2 lot choice delivered now
          (.confirmJoin cnt true, d.2)
        else (.confirmJoin cnt false, r.2)

/-- Insertion step of a stable insertion sort with a boolean `le`. -/
def insertLe (le : α → α → Bool) (a : α) : List α → List α
  | [] => [a]
  | b :: bs => if le a b then a :: b :: bs else b :: insertLe le a bs

/-- Stable insertion sort with a boolean `le` (models SQL ORDER BY). -/
def sortByLe (le : α → α → Bool) (l : List α) : List α :=
  l.foldr (insertLe le) []

/-- `getPrizeWarehouses`: `SELECT DISTINCT warehouse_name FROM
prize_warehouse ORDER BY warehouse_name`. -/
def getPrizeWarehouses (db : DB) : List String :=
  sortByLe (fun a b => decide (a ≤ b)) (db.prizes.map (fun p => p.warehouse)).dedup

/-- `getWarehousePrizes`: `SELECT * FROM prize_warehouse WHERE
warehouse_name = ? AND stock_count > 0 ORDER BY order_index`. -/
def getWarehousePrizes (db : DB) (w : String) : List PrizeItem :=
  sortByLe (fun a b => decide (a.orderIndex ≤ b.orderIndex))
    (db.prizes.filter (fun p => p.warehouse == w && p.stock > 0))

/-- Decimal digit value of a character, if it is a digit. -/
def digitVal (c : Char) : Option Nat :=
  if 48 ≤ c.toNat ∧ c.toNat ≤ 57 then some (c.toNat - 48) else none

/-- Accumulate the longest digit run (JS `parseInt` keeps the numeric
prefix and ignores the rest). -/
def parseDigitsAux : List Char → Nat → Nat
  | [], acc => acc
  | c :: cs, acc =>
    match digitVal c with
    | some d => parseDigitsAux cs (acc * 10 + d)
    | none => acc

/-- The leading digit run of a character list, `none` when it is empty. -/
def parseNatDigits : List Char → Option Nat
  | [] => none
  | c :: cs =>
    match digitVal c with
    | some d => some (parseDigitsAux cs d)
    | none => none

/-- JS `parseInt` on a decimal string: an optional minus sign followed by at
least one digit; anything after the digit run is ignored, anything else is
NaN (`none`).  (Leading whitespace, an explicit plus sign and radix
prefixes are not modelled; no call site of this model feeds them.) -/
def jsParseInt (s : String) : Option Int :=
  match s.data with
  | [] => none
  | c :: cs =>
    if c = '-' then (parseNatDigits cs).map (fun n => -(n : Int))
    else (parseNatDigits (c :: cs)).map (fun n => (n : Int))

/-- `getWarehouseByNameOrIndex`: the identifier is tried as a 1-based index
into the warehouse list, then as a warehouse name. -/
def getWarehouseByNameOrIndex (ident : String) (whs : List String) :
    Option String :=
  match jsParseInt ident with
  | some i =>
    if 1 ≤ i ∧ i ≤ (whs.length : Int) then whs[(i - 1).toNat]?
    else if whs.contains ident then some ident else none
  | none => if whs.contains ident then some ident else none

/-- The AUTOINCREMENT id for a new `lottery_config` row. -/
def nextLotteryId (db : DB) : Nat :=
  (db.lotteries.map (fun l => l.id)).foldl max 0 + 1

/-- The `lottery create` subcommand (shift.ts:2400-2557), from the numeric
validation on: creation is refused in saved messages (chat = sender), on
unparsable numbers (`isNaN`), when `winnerCount > maxParticipants`, when the
warehouse identifier resolves to no warehouse, when the resolved warehouse
has no available prize, and when the chat already has an active lottery;
otherwise the hard-coded config of lines 2507-2526 is stored: manual mode,
AUTO_SEND distribution, 86400 s claim timeout, no avatar / username /
channel requirement, bots disallowed.  `maxP` and `winC` are the `parseInt`
results for the two numeric arguments (`none` = NaN). -/
def createCommand (db : DB) (chat : String) (senderId : String)
    (title : String) (keyword : String) (maxP : Option Int) (winC : Option Int)
    (warehouseIdent : String) (now : Int) : Option LotteryRow × DB :=
  if chat == senderId then (none, db)
  else
    match maxP, winC with
    | some mp, some wc =>
      if wc > mp then (none, db)
      else
        match getWarehouseByNameOrIndex warehouseIdent (getPrizeWarehouses db) with
        | none => (none, db)
        | some w =>
          if (getWarehousePrizes db w).isEmpty then (none, db)
          else
            match getActiveLottery db chat with
            | some _ => (none, db)
            | none =>
              let cfg : LotteryRow :=
                { id := nextLotteryId db
                  chatId := chat
                  title := title
                  keyword := keyword
                  maxParticipants := mp
                  winnerCount := wc
                  mode := .manual
                  distributionMode := .autoSend
                  claimTimeout := 86400
                  requireAvatar := false
                  requireUsername := false
                  requiredChannel := none
                  warehouse := w
                  allowBots := false
                  createdAt := now
                  status := .active
                  creatorId := senderId }
              (some cfg, { db with lotteries := db.lotteries ++ [cfg] })
    | _, _ => (none, db)

/-! ### Helper lemmas: the Fisher-Yates shuffle permutes its input -/

theorem listSwap_perm [DecidableEq α] (l : List α) (i j : Nat) :
    (listSwap l i j).Perm l := by
  rcases h1 : l[i]? with _ | a
  · simp only [listSwap, h1]; exact List.Perm.refl l
  · rcases h2 : l[j]? with _ | b
    · simp only [listSwap, h1, h2]; exact List.Perm.refl l
    · simp only [listSwap, h1, h2]
      obtain ⟨hi, hai⟩ := List.getElem?_eq_some.mp h1
      obtain ⟨hj, hbj⟩ := List.getElem?_eq_some.mp h2
      have hj2 : j < (l.set i b).length := by simpa using hj
      apply List.perm_iff_count.mpr
      intro x
      rw [List.count_set a x (l.set i b) j hj2, List.count_set b x l i hi]
      have hsetj : (l.set i b)[j] = b := by
        by_cases hij : i = j
        · subst hij; exact List.getElem_set_self hj2
        · rw [List.getElem_set_ne hij]; exact hbj
      rw [hsetj, hai]
      have hmem : a ∈ l := hai ▸ List.getElem_mem hi
      simp only [beq_iff_eq]
      by_cases hax : a = x
      · have h1c : 1 ≤ List.count x l := List.one_le_count_iff.mpr (hax ▸ hmem)
        by_cases hbx : b = x <;> simp only [hax, hbx, if_true, if_false,
          ite_true, ite_false, if_pos, if_neg, not_false_iff] <;> omega
      · by_cases hbx : b = x <;> simp only [hax, hbx, if_true, if_false,
          ite_true, ite_false, if_pos, if_neg, not_false_iff] <;> omega

theorem fyLoop_perm [DecidableEq α] (choice : Nat → Nat) :
    ∀ (i : Nat) (l : List α), (fyLoop choice l i).Perm l
  | 0, _ => List.Perm.refl _
  | i + 1, l =>
    (fyLoop_perm choice i (listSwap l (i + 1) (choice (i + 1) % (i + 2)))).trans
      (listSwap_perm l (i + 1) (choice (i + 1) % (i + 2)))

theorem fisherYates_perm [DecidableEq α] (choice : Nat → Nat) (l : List α) :
    (fisherYates choice l).Perm l :=
  fyLoop_perm choice (l.length - 1) l

theorem fisherYates_length [DecidableEq α] (choice : Nat → Nat) (l : List α) :
    (fisherYates choice l).length = l.length :=
  (fisherYates_perm choice l).length_eq

/-! ### Helper lemmas: admission -/

/-- The database reached after a list of admission calls (lottery id and
user id per call). -/
def applyAdmissions (db : DB) (calls : List (Nat × String)) : DB :=
  calls.foldl (fun a c => (addParticipantToLottery a c.1 c.2).2) db

theorem admitTx_full (db : DB) (lid : Nat) (u : String) (lot : LotteryRow)
    (hf : findLottery db lid = some lot)
    (hge : lot.maxParticipants ≤ (countParticipants db lid : Int)) :
    admitTx db lid u = .error .fullOrNotFound := by
  unfold admitTx
  rw [hf]
  simp only [ge_iff_le, hge, if_pos]

theorem addParticipant_of_error (db : DB) (lid : Nat) (u : String)
    (e : AdmitError) (h : admitTx db lid u = .error e) :
    addParticipantToLottery db lid u = (false, db) := by
  unfold addParticipantToLottery
  rw [h]

theorem admitTx_ok_spec (db : DB) (lid : Nat) (u : String) (db1 : DB)
    (h : admitTx db lid u = .ok db1) :
    db1 = { db with participants := db.participants ++ [⟨lid, u⟩] } ∧
    (∃ lot, findLottery db lid = some lot ∧
      (countParticipants db lid : Int) < lot.maxParticipants) ∧
    db.participants.any (fun p => p.lotteryId == lid && p.userId == u) = false := by
  unfold admitTx at h
  rcases hf : findLottery db lid with _ | lot
  · rw [hf] at h
    exact absurd h (by simp)
  · rw [hf] at h
    simp only [ge_iff_le] at h
    by_cases h1 : lot.maxParticipants ≤ (countParticipants db lid : Int)
    · rw [if_pos h1] at h
      exact absurd h (by simp)
    · rw [if_neg h1] at h
      by_cases h2 : db.participants.any
          (fun p => p.lotteryId == lid && p.userId == u) = true
      · rw [if_pos h2] at h
        exact absurd h (by simp)
      · rw [if_neg h2] at h
        injection h with h3
        exact ⟨h3.symm, ⟨lot, rfl, by omega⟩, by simpa using h2⟩

theorem countParticipants_append (db : DB) (lid lid2 : Nat) (u : String) :
    countParticipants { db with participants := db.participants ++ [⟨lid2, u⟩] } lid
      = countParticipants db lid + (if lid2 = lid then 1 else 0) := by
  unfold countParticipants
  simp only [List.filter_append, List.length_append]
  by_cases hl : lid2 = lid <;> simp [hl]

theorem addParticipant_lotteries (db : DB) (lid : Nat) (u : String) :
    (addParticipantToLottery db lid u).2.lotteries = db.lotteries := by
  unfold addParticipantToLottery
  rcases h : admitTx db lid u with e | db1
  · rfl
  · obtain ⟨h1, -, -⟩ := admitTx_ok_spec db lid u db1 h
    rw [h1]

theorem addParticipant_count_le (db : DB) (lid lid2 : Nat) (u : String)
    (lot : LotteryRow) (hf : findLottery db lid = some lot)
    (hle : (countParticipants db lid : Int) ≤ lot.maxParticipants) :
    (countParticipants (addParticipantToLottery db lid2 u).2 lid : Int)
      ≤ lot.maxParticipants := by
  unfold addParticipantToLottery
  rcases h : admitTx db lid2 u with e | db1
  · exact hle
  · obtain ⟨h1, ⟨lot2, hf2, hlt⟩, -⟩ := admitTx_ok_spec db lid2 u db1 h
    subst h1
    rw [countParticipants_append]
    by_cases hl : lid2 = lid
    · subst hl
      rw [hf] at hf2
      injection hf2 with hf3
      subst hf3
      simp only [if_pos rfl]
      push_cast
      omega
    · simp only [if_neg hl]
      simpa using hle

theorem applyAdmissions_capacity (calls : List (Nat × String)) (db : DB)
    (lid : Nat) (lot : LotteryRow) (hf : findLottery db lid = some lot)
    (hle : (countParticipants db lid : Int) ≤ lot.maxParticipants) :
    (countParticipants (applyAdmissions db calls) lid : Int)
      ≤ lot.maxParticipants := by
  induction calls generalizing db with
  | nil => exact hle
  | cons c rest ih =>
    have hf2 : findLottery (addParticipantToLottery db c.1 c.2).2 lid = some lot := by
      unfold findLottery
      rw [addParticipant_lotteries]
      exact hf
    exact ih _ hf2 (addParticipant_count_le db lid c.1 c.2 lot hf hle)

theorem admit_dup_reject (db : DB) (lid : Nat) (u : String)
    (hmem : db.participants.any
      (fun p => p.lotteryId == lid && p.userId == u) = true) :
    addParticipantToLottery db lid u = (false, db) := by
  unfold addParticipantToLottery admitTx
  rcases hf : findLottery db lid with _ | lot
  · rfl
  · simp only [ge_iff_le]
    by_cases h1 : lot.maxParticipants ≤ (countParticipants db lid : Int)
    · rw [if_pos h1]
    · rw [if_neg h1, if_pos hmem]

theorem admitTx_dup_reason (db : DB) (lid : Nat) (u : String) (lot : LotteryRow)
    (hf : findLottery db lid = some lot)
    (hlt : (countParticipants db lid : Int) < lot.maxParticipants)
    (hmem : db.participants.any
      (fun p => p.lotteryId == lid && p.userId == u) = true) :
    admitTx db lid u = .error .duplicate := by
  unfold admitTx
  rw [hf]
  simp only [ge_iff_le]
  rw [if_neg (by omega), if_pos hmem]

/-- The (lottery id, user id) keys of the participant table, in row order. -/
def participantKeys (db : DB) : List (Nat × String) :=
  db.participants.map (fun p => (p.lotteryId, p.userId))

theorem addParticipant_keys_nodup (db : DB) (lid : Nat) (u : String)
    (h : (participantKeys db).Nodup) :
    (participantKeys (addParticipantToLottery db lid u).2).Nodup := by
  unfold addParticipantToLottery
  rcases he : admitTx db lid u with e | db1
  · exact h
  · obtain ⟨h1, -, hany⟩ := admitTx_ok_spec db lid u db1 he
    subst h1
    unfold participantKeys at h ⊢
    simp only [List.map_append, List.map_cons, List.map_nil]
    rw [List.nodup_append]
    refine ⟨h, List.nodup_singleton _, ?_⟩
    intro k hk hk2
    simp only [List.mem_singleton] at hk2
    subst hk2
    simp only [List.mem_map] at hk
    obtain ⟨p, hp, hpk⟩ := hk
    rw [Prod.mk.injEq] at hpk
    have hpt : (p.lotteryId == lid && p.userId == u) = true := by
      simp [hpk.1, hpk.2]
    have hcontra : db.participants.any
        (fun p => p.lotteryId == lid && p.userId == u) = true := by
      rw [List.any_eq_true]
      exact ⟨p, hp, hpt⟩
    rw [hany] at hcontra
    exact absurd hcontra (by simp)

/-! ### Helper lemmas: prize stock consumption -/

/-- The database reached after a list of `consumePrize` calls. -/
def applyConsumes (db : DB) (calls : List Nat) : DB :=
  calls.foldl (fun a c => (consumePrize a c).2) db

theorem consumePrize_fst (db : DB) (pid : Nat) :
    (consumePrize db pid).1 = true ↔
      ∃ p ∈ db.prizes, p.id = pid ∧ 0 < p.stock := by
  unfold consumePrize
  simp [List.any_eq_true]

theorem consumePrize_getElem (db : DB) (pid : Nat) (i : Nat) (p : PrizeItem)
    (h : db.prizes[i]? = some p) :
    (consumePrize db pid).2.prizes[i]? =
      some (if p.id = pid ∧ 0 < p.stock then { p with stock := p.stock - 1 }
            else p) := by
  unfold consumePrize
  simp only [List.getElem?_map, h, Option.map_some']
  by_cases hc : p.id = pid ∧ 0 < p.stock
  · rw [if_pos (by simp [hc.1, hc.2]), if_pos hc]
  · rw [if_neg (by simpa using hc), if_neg hc]

theorem consumePrize_nonneg (db : DB) (pid : Nat)
    (h : ∀ p ∈ db.prizes, 0 ≤ p.stock) :
    ∀ p ∈ (consumePrize db pid).2.prizes, 0 ≤ p.stock := by
  unfold consumePrize
  intro p hp
  simp only [List.mem_map] at hp
  obtain ⟨q, hq, hqp⟩ := hp
  have hq2 := h q hq
  subst hqp
  split_ifs with hc
  · simp only [Bool.and_eq_true, beq_iff_eq, decide_eq_true_eq] at hc
    simp only
    omega
  · exact hq2

theorem applyConsumes_nonneg (calls : List Nat) (db : DB)
    (h : ∀ p ∈ db.prizes, 0 ≤ p.stock) :
    ∀ p ∈ (applyConsumes db calls).prizes, 0 ≤ p.stock := by
  induction calls generalizing db with
  | nil => exact h
  | cons c rest ih => exact ih _ (consumePrize_nonneg db c h)

/-! ### Helper lemmas: prize selection order -/

theorem prizeFold_none : ∀ (l : List PrizeItem) (acc : Option PrizeItem),
    l.foldl prizeMinStep acc = none → acc = none ∧ l = [] := by
  intro l
  induction l with
  | nil => exact fun acc h => ⟨h, rfl⟩
  | cons hd tl ih =>
    intro acc h
    simp only [List.foldl_cons] at h
    obtain ⟨h1, -⟩ := ih _ h
    exfalso
    rcases acc with _ | q
    · exact absurd h1 (by simp [prizeMinStep])
    · simp only [prizeMinStep] at h1
      split_ifs at h1

theorem prizeFold_mem : ∀ (l : List PrizeItem) (acc : Option PrizeItem)
    (p : PrizeItem), l.foldl prizeMinStep acc = some p → acc = some p ∨ p ∈ l := by
  intro l
  induction l with
  | nil => exact fun acc p h => Or.inl h
  | cons hd tl ih =>
    intro acc p h
    simp only [List.foldl_cons] at h
    rcases ih _ p h with h1 | h1
    · rcases acc with _ | q
      · simp only [prizeMinStep] at h1
        injection h1 with h2
        exact Or.inr (h2 ▸ List.mem_cons_self hd tl)
      · simp only [prizeMinStep] at h1
        split_ifs at h1
        · injection h1 with h2
          exact Or.inr (h2 ▸ List.mem_cons_self hd tl)
        · exact Or.inl h1
    · exact Or.inr (List.mem_cons_of_mem hd h1)

theorem prizeFold_min : ∀ (l : List PrizeItem) (acc : Option PrizeItem)
    (p : PrizeItem), l.foldl prizeMinStep acc = some p →
    (∀ q ∈ l, p.orderIndex ≤ q.orderIndex) ∧
    (∀ b, acc = some b → p.orderIndex ≤ b.orderIndex) := by
  intro l
  induction l with
  | nil =>
    intro acc p h
    refine ⟨by simp, fun b hb => ?_⟩
    rw [hb] at h
    injection h with h2
    rw [h2]
  | cons hd tl ih =>
    intro acc p h
    simp only [List.foldl_cons] at h
    obtain ⟨htl, hacc⟩ := ih _ p h
    have hhd : p.orderIndex ≤ hd.orderIndex := by
      rcases acc with _ | q
      · exact hacc hd (by simp [prizeMinStep])
      · by_cases hlt : hd.orderIndex < q.orderIndex
        · exact hacc hd (by simp [prizeMinStep, hlt])
        · have := hacc q (by simp [prizeMinStep, hlt])
          omega
    refine ⟨fun q hq => ?_, fun b hb => ?_⟩
    · rcases List.mem_cons.mp hq with h2 | h2
      · rw [h2]; exact hhd
      · exact htl q h2
    · subst hb
      by_cases hlt : hd.orderIndex < b.orderIndex
      · have := hacc hd (by simp [prizeMinStep, hlt])
        omega
      · exact hacc b (by simp [prizeMinStep, hlt])

theorem getNextAvailablePrize_some (prizes : List PrizeItem) (w : String)
    (p : PrizeItem) (h : getNextAvailablePrize prizes w = some p) :
    p ∈ prizes ∧ p.warehouse = w ∧ 0 < p.stock ∧
    ∀ q ∈ prizes, q.warehouse = w → 0 < q.stock →
      p.orderIndex ≤ q.orderIndex := by
  unfold getNextAvailablePrize at h
  rcases prizeFold_mem _ _ _ h with h1 | h1
  · exact absurd h1 (by simp)
  · have hmf := List.mem_filter.mp h1
    have hcond := hmf.2
    simp only [Bool.and_eq_true, beq_iff_eq, decide_eq_true_eq] at hcond
    refine ⟨hmf.1, hcond.1, hcond.2, fun q hq hw hs => ?_⟩
    exact (prizeFold_min _ _ _ h).1 q
      (List.mem_filter.mpr ⟨hq, by simp [hw, hs]⟩)

theorem getNextAvailablePrize_none (prizes : List PrizeItem) (w : String)
    (h : getNextAvailablePrize prizes w = none) :
    ∀ q ∈ prizes, q.warehouse = w → ¬ 0 < q.stock := by
  unfold getNextAvailablePrize at h
  have hnil := (prizeFold_none _ _ h).2
  intro q hq hw hs
  have : q ∈ prizes.filter (fun p => p.warehouse == w && p.stock > 0) :=
    List.mem_filter.mpr ⟨hq, by simp [hw, hs]⟩
  rw [hnil] at this
  exact absurd this (List.not_mem_nil q)

/-! ### Helper lemmas: the distribution pass -/

/-- The prize text the per-winner loop assigns next: the available item's
text, or the fallback. -/
def assignedText (db : DB) (lot : LotteryRow) : String :=
  match getNextAvailablePrize db.prizes lot.warehouse with
  | some p => p.text
  | none => fallbackPrizeText

theorem distributeStep_winners (lot : LotteryRow) (now : Int) (db : DB)
    (u : String) :
    (distributeStep lot now db u).winners = db.winners ++
      [⟨lot.id, u, assignedText db lot, .pending, now, none,
        now + lot.claimTimeout * 1000⟩] := by
  unfold distributeStep assignedText
  rcases h : getNextAvailablePrize db.prizes lot.warehouse with _ | p <;> rfl

theorem distributeStep_participants (lot : LotteryRow) (now : Int) (db : DB)
    (u : String) : (distributeStep lot now db u).participants = db.participants := by
  unfold distributeStep
  rcases h : getNextAvailablePrize db.prizes lot.warehouse with _ | p <;> rfl

theorem distributeStep_lotteries (lot : LotteryRow) (now : Int) (db : DB)
    (u : String) : (distributeStep lot now db u).lotteries = db.lotteries := by
  unfold distributeStep
  rcases h : getNextAvailablePrize db.prizes lot.warehouse with _ | p <;> rfl

theorem distributePrizes_shape (ws : List Participant) (db : DB)
    (lot : LotteryRow) (now : Int) :
    ∃ recs : List WinnerRecord,
      (distributePrizes db lot ws now).winners = db.winners ++ recs ∧
      recs.map (fun r => (r.lotteryId, r.userId, r.status)) =
        ws.map (fun p => (lot.id, p.userId, PrizeStatus.pending)) := by
  induction ws generalizing db with
  | nil => exact ⟨[], by simp [distributePrizes], rfl⟩
  | cons w rest ih =>
    obtain ⟨recs, h1, h2⟩ := ih (distributeStep lot now db w.userId)
    refine ⟨⟨lot.id, w.userId, assignedText db lot, .pending, now, none,
      now + lot.claimTimeout * 1000⟩ :: recs, ?_, ?_⟩
    · have : distributePrizes db lot (w :: rest) now =
          distributePrizes (distributeStep lot now db w.userId) lot rest now := rfl
      rw [this, h1, distributeStep_winners]
      simp
    · simp only [List.map_cons, h2]

theorem distributePrizes_participants (ws : List Participant) (db : DB)
    (lot : LotteryRow) (now : Int) :
    (distributePrizes db lot ws now).participants = db.participants := by
  induction ws generalizing db with
  | nil => rfl
  | cons w rest ih =>
    have : distributePrizes db lot (w :: rest) now =
        distributePrizes (distributeStep lot now db w.userId) lot rest now := rfl
    rw [this, ih, distributeStep_participants]

theorem distributePrizes_lotteries (ws : List Participant) (db : DB)
    (lot : LotteryRow) (now : Int) :
    (distributePrizes db lot ws now).lotteries = db.lotteries := by
  induction ws generalizing db with
  | nil => rfl
  | cons w rest ih =>
    have : distributePrizes db lot (w :: rest) now =
        distributePrizes (distributeStep lot now db w.userId) lot rest now := rfl
    rw [this, ih, distributeStep_lotteries]

theorem markSent_proj (db : DB) (lid : Nat) (uid : String) (now : Int) :
    (markSentByUser db lid uid now).winners.map (fun w => (w.lotteryId, w.userId))
      = db.winners.map (fun w => (w.lotteryId, w.userId)) := by
  unfold markSentByUser
  simp only [List.map_map]
  apply List.map_congr_left
  intro w _
  simp only [Function.comp_apply]
  split_ifs <;> rfl

theorem markSent_frame (db : DB) (lid : Nat) (uid : String) (now : Int) :
    (markSentByUser db lid uid now).lotteries = db.lotteries ∧
    (markSentByUser db lid uid now).participants = db.participants ∧
    (markSentByUser db lid uid now).prizes = db.prizes :=
  ⟨rfl, rfl, rfl⟩

theorem autoSendPass_proj (ws : List Participant) (db : DB) (lot : LotteryRow)
    (delivered : String → Bool) (now : Int) :
    (autoSendPass db lot ws delivered now).winners.map
        (fun w => (w.lotteryId, w.userId))
      = db.winners.map (fun w => (w.lotteryId, w.userId)) := by
  induction ws generalizing db with
  | nil => rfl
  | cons w rest ih =>
    have : autoSendPass db lot (w :: rest) delivered now = autoSendPass
        (if delivered w.userId then markSentByUser db lot.id w.userId now else db)
        lot rest delivered now := rfl
    rw [this]
    split_ifs with hd
    · rw [ih, markSent_proj]
    · exact ih db

theorem autoSendPass_frame (ws : List Participant) (db : DB) (lot : LotteryRow)
    (delivered : String → Bool) (now : Int) :
    (autoSendPass db lot ws delivered now).lotteries = db.lotteries ∧
    (autoSendPass db lot ws delivered now).participants = db.participants ∧
    (autoSendPass db lot ws delivered now).prizes = db.prizes := by
  induction ws generalizing db with
  | nil => exact ⟨rfl, rfl, rfl⟩
  | cons w rest ih =>
    have : autoSendPass db lot (w :: rest) delivered now = autoSendPass
        (if delivered w.userId then markSentByUser db lot.id w.userId now else db)
        lot rest delivered now := rfl
    rw [this]
    split_ifs with hd
    · exact ih (markSentByUser db lot.id w.userId now)
    · exact ih db

theorem completeLottery_frame (db : DB) (lid : Nat) :
    (completeLottery db lid).winners = db.winners ∧
    (completeLottery db lid).participants = db.participants ∧
    (completeLottery db lid).prizes = db.prizes :=
  ⟨rfl, rfl, rfl⟩

theorem completeLottery_status (db : DB) (lid : Nat) :
    ∀ l ∈ (completeLottery db lid).lotteries, l.id = lid →
      l.status = .completed := by
  intro l hl hid
  unfold completeLottery at hl
  simp only [List.mem_map] at hl
  obtain ⟨l0, hl0, hl1⟩ := hl
  by_cases h0 : l0.id = lid
  · rw [if_pos (by simp [h0])] at hl1
    rw [← hl1]
  · rw [if_neg (by simp [h0])] at hl1
    subst hl1
    exact absurd hid h0

/-! ### Helper lemmas: the winner-record status operations -/

theorem expireOldClaims_getElem (db : DB) (now : Int) (i : Nat)
    (w : WinnerRecord) (h : db.winners[i]? = some w) :
    (expireOldClaims db now).winners[i]? =
      some (if w.status = .pending ∧ w.expiresAt < now then
        { w with status := .expired } else w) := by
  unfold expireOldClaims
  simp only [List.getElem?_map, h, Option.map_some']
  by_cases hc : w.status = .pending ∧ w.expiresAt < now
  · rw [if_pos (by simp [hc.1, hc.2]), if_pos hc]
  · rw [if_neg (by simpa using hc), if_neg hc]

theorem expireOldClaims_length (db : DB) (now : Int) :
    (expireOldClaims db now).winners.length = db.winners.length := by
  unfold expireOldClaims
  simp

theorem markSent_getElem (db : DB) (lid : Nat) (uid : String) (now : Int)
    (i : Nat) (w : WinnerRecord) (h : db.winners[i]? = some w) :
    (markSentByUser db lid uid now).winners[i]? =
      some (if w.lotteryId = lid ∧ w.userId = uid then
        { w with status := .sent, claimedAt := some now } else w) := by
  unfold markSentByUser
  simp only [List.getElem?_map, h, Option.map_some']
  by_cases hc : w.lotteryId = lid ∧ w.userId = uid
  · rw [if_pos (by simp [hc.1, hc.2]), if_pos hc]
  · rw [if_neg (by simpa using hc), if_neg hc]

theorem updateWinnerStatus_getElem (db : DB) (lid : Nat) (uid : String)
    (st : PrizeStatus) (now : Int) (i : Nat) (w : WinnerRecord)
    (h : db.winners[i]? = some w) :
    (updateWinnerStatusByUser db lid uid st now).2.winners[i]? =
      some (if w.lotteryId = lid ∧ w.userId = uid then
        { w with status := st, claimedAt := some now } else w) := by
  unfold updateWinnerStatusByUser
  simp only [List.getElem?_map, h, Option.map_some']
  by_cases hc : w.lotteryId = lid ∧ w.userId = uid
  · rw [if_pos (by simp [hc.1, hc.2]), if_pos hc]
  · rw [if_neg (by simpa using hc), if_neg hc]

/-- The three operations the engine ever applies to existing winner
records: the auto-send success update inside `sendPrizeToWinner`, the
`lottery claim` mark-claimed update (`updateWinnerStatusByUser` with
`sent`), and the `expireOldClaims` sweep. -/
inductive WinnerOp where
  | autoSendOp (lid : Nat) (uid : String) (now : Int)
  | markClaimedOp (lid : Nat) (uid : String) (now : Int)
  | sweepOp (now : Int)

/-- Apply one of the three status operations to the database. -/
def applyWinnerOp (db : DB) : WinnerOp → DB
  | .autoSendOp lid uid now => markSentByUser db lid uid now
  | .markClaimedOp lid uid now => (updateWinnerStatusByUser db lid uid .sent now).2
  | .sweepOp now => expireOldClaims db now

/-- Apply a sequence of status operations. -/
def applyWinnerOps (db : DB) (ops : List WinnerOp) : DB :=
  ops.foldl applyWinnerOp db

theorem applyWinnerOp_spec (db : DB) (op : WinnerOp) (i : Nat)
    (w : WinnerRecord) (h : db.winners[i]? = some w) :
    ∃ w', (applyWinnerOp db op).winners[i]? = some w' ∧
      (w.status = .sent → w'.status = .sent) ∧
      (w'.status ≠ w.status →
        (w.status = .pending ∧ (w'.status = .sent ∨ w'.status = .expired)) ∨
        (w.status = .expired ∧ w'.status = .sent)) := by
  cases op with
  | autoSendOp lid uid now =>
    refine ⟨_, markSent_getElem db lid uid now i w h, ?_, ?_⟩ <;>
      by_cases hc : w.lotteryId = lid ∧ w.userId = uid <;>
      cases hst : w.status <;> simp [hc, hst]
  | markClaimedOp lid uid now =>
    refine ⟨_, updateWinnerStatus_getElem db lid uid .sent now i w h, ?_, ?_⟩ <;>
      by_cases hc : w.lotteryId = lid ∧ w.userId = uid <;>
      cases hst : w.status <;> simp [hc, hst]
  | sweepOp now =>
    refine ⟨_, expireOldClaims_getElem db now i w h, ?_, ?_⟩
    · by_cases hc : w.status = .pending ∧ w.expiresAt < now
      · rw [if_pos hc]
        intro hs
        simp [hs] at hc
      · rw [if_neg hc]
        exact id
    · by_cases hc : w.status = .pending ∧ w.expiresAt < now
      · rw [if_pos hc]
        exact fun _ => Or.inl ⟨hc.1, Or.inr rfl⟩
      · rw [if_neg hc]
        exact fun hne => absurd rfl hne

theorem applyWinnerOps_sent (ops : List WinnerOp) (db : DB) (i : Nat)
    (w : WinnerRecord) (h : db.winners[i]? = some w)
    (hs : w.status = .sent) :
    ∃ w', (applyWinnerOps db ops).winners[i]? = some w' ∧
      w'.status = .sent := by
  induction ops generalizing db w with
  | nil => exact ⟨w, h, hs⟩
  | cons op rest ih =>
    obtain ⟨w1, hw1, hsent, -⟩ := applyWinnerOp_spec db op i w h
    exact ih (applyWinnerOp db op) w1 hw1 (hsent hs)

theorem completeLottery_lotteries (db : DB) (lid : Nat) :
    (completeLottery db lid).lotteries = db.lotteries.map (fun l =>
      if l.id == lid then { l with status := .completed } else l) := rfl

theorem performLotteryDraw_lotteries (db : DB) (lot : LotteryRow)
    (choice : Nat → Nat) (delivered : String → Bool) (now : Int) :
    (performLotteryDraw db lot choice delivered now).2.lotteries =
      db.lotteries.map (fun l =>
        if l.id == lot.id then { l with status := .completed } else l) := by
  unfold performLotteryDraw
  by_cases hemp : (getLotteryParticipants db lot.id).isEmpty
  · rw [if_pos hemp]
    rfl
  · rw [if_neg hemp]
    by_cases hm : lot.distributionMode == DistributionMode.autoSend
    · simp only [hm, ite_true, if_true]
      rw [completeLottery_lotteries, (autoSendPass_frame _ _ _ _ _).1,
            distributePrizes_lotteries]
    · simp only [hm, ite_false, if_false, Bool.false_eq_true]
      rw [completeLottery_lotteries, distributePrizes_lotteries]

/-! ### Helper lemmas: active-lottery lookup and the draw subcommand -/

theorem getActiveLottery_none (db : DB) (chat : String)
    (h : ∀ l ∈ db.lotteries, ¬(l.chatId = chat ∧ l.status = .active)) :
    getActiveLottery db chat = none := by
  unfold getActiveLottery
  rw [List.filter_eq_nil_iff.mpr (fun l hl => by simpa using h l hl)]
  rfl

theorem drawCommand_of_none (db : DB) (chat : String) (choice : Nat → Nat)
    (delivered : String → Bool) (now : Int)
    (h : getActiveLottery db chat = none) :
    drawCommand db chat choice delivered now = (.noActiveLottery, db) := by
  unfold drawCommand
  rw [h]

theorem performDraw_no_active (db : DB) (lot : LotteryRow) (choice : Nat → Nat)
    (delivered : String → Bool) (now : Int) (chat : String)
    (honly : ∀ l ∈ db.lotteries, l.chatId = chat → l.id = lot.id) :
    getActiveLottery (performLotteryDraw db lot choice delivered now).2 chat
      = none := by
  apply getActiveLottery_none
  intro l hl hla
  rw [performLotteryDraw_lotteries] at hl
  simp only [List.mem_map] at hl
  obtain ⟨l0, hl0, heq⟩ := hl
  by_cases hid : l0.id = lot.id
  · rw [if_pos (by simp [hid])] at heq
    rw [← heq] at hla
    exact absurd hla.2 (by simp)
  · rw [if_neg (by simp [hid])] at heq
    subst heq
    exact hid (honly l0 hl0 hla.1)

theorem autoSendPass_length (ws : List Participant) (db : DB)
    (lot : LotteryRow) (delivered : String → Bool) (now : Int) :
    (autoSendPass db lot ws delivered now).winners.length = db.winners.length := by
  have h := congrArg List.length (autoSendPass_proj ws db lot delivered now)
  simpa using h

theorem distributeStep_prizes (lot : LotteryRow) (now : Int) (db : DB)
    (u : String) :
    (distributeStep lot now db u).prizes =
      match getNextAvailablePrize db.prizes lot.warehouse with
      | some p => (consumePrize db p.id).2.prizes
      | none => db.prizes := by
  unfold distributeStep
  rcases h : getNextAvailablePrize db.prizes lot.warehouse with _ | p <;> rfl

theorem drawDb_winners_proj (db : DB) (lot : LotteryRow)
    (ws : List Participant) (delivered : String → Bool) (now : Int) :
    (if lot.distributionMode == DistributionMode.autoSend then
        autoSendPass (distributePrizes db lot ws now) lot ws delivered now
      else distributePrizes db lot ws now).winners.map
        (fun w => (w.lotteryId, w.userId)) =
      db.winners.map (fun w => (w.lotteryId, w.userId)) ++
        ws.map (fun p => (lot.id, p.userId)) := by
  obtain ⟨recs, hrecs, hmap⟩ := distributePrizes_shape ws db lot now
  have hd1 : (distributePrizes db lot ws now).winners.map
      (fun w => (w.lotteryId, w.userId)) =
      db.winners.map (fun w => (w.lotteryId, w.userId)) ++
        ws.map (fun p => (lot.id, p.userId)) := by
    rw [hrecs, List.map_append]
    congr 1
    have h2 := congrArg
      (List.map (fun t : Nat × String × PrizeStatus => (t.1, t.2.1))) hmap
    rw [List.map_map, List.map_map] at h2
    exact h2
  split_ifs with hm
  · rw [autoSendPass_proj]
    exact hd1
  · exact hd1

/-! ### Claim C3: capacity invariant of admission -/

/-- C3: for every lottery and every sequence of admission calls against it,
the number of participant rows for that lottery never exceeds the lottery's
`maxParticipants`; an admission call that observes `count ≥ maxParticipants`
rejects (the transaction throws the "Lottery full" error, so the caller gets
`false`) and inserts no row. -/
theorem C3_capacity_invariant :
    (∀ (db : DB) (lid : Nat) (u : String) (lot : LotteryRow),
      findLottery db lid = some lot →
      lot.maxParticipants ≤ (countParticipants db lid : Int) →
      admitTx db lid u = .error .fullOrNotFound ∧
      addParticipantToLottery db lid u = (false, db)) ∧
    (∀ (db : DB) (calls : List (Nat × String)) (lid : Nat) (lot : LotteryRow),
      findLottery db lid = some lot →
      (countParticipants db lid : Int) ≤ lot.maxParticipants →
      (countParticipants (applyAdmissions db calls) lid : Int)
        ≤ lot.maxParticipants) := by
  constructor
  · intro db lid u lot hf hge
    have he := admitTx_full db lid u lot hf hge
    exact ⟨he, addParticipant_of_error db lid u _ he⟩
  · intro db calls lid lot hf hle
    exact applyAdmissions_capacity calls db lid lot hf hle

/-- A lottery with capacity 2, already holding 2 participants. -/
def c3wlot : LotteryRow :=
  ⟨1, "c", "t", "k", 2, 1, .manual, .autoSend, 86400, false, false, none,
    "w1", false, 0, .active, "op"⟩

def c3wdb : DB := ⟨[c3wlot], [⟨1, "a"⟩, ⟨1, "b"⟩], [], []⟩

theorem C3_capacity_invariant_witness :
    admitTx c3wdb 1 "c" = .error .fullOrNotFound ∧
    addParticipantToLottery c3wdb 1 "c" = (false, c3wdb) :=
  C3_capacity_invariant.1 c3wdb 1 "c" c3wlot (by decide) (by decide)

/-! ### Claim C4: atomic stock consumption, stock never negative -/

/-- C4: `consumePrize` succeeds exactly when some row with the given id has
positive stock; the row's stock is then decremented by exactly one and every
other row is untouched (the check and decrement are one step of the model,
mirroring the single SQL UPDATE); consequently, starting from non-negative
stocks, no sequence of consume calls ever drives any stock negative. -/
theorem C4_stock_nonneg :
    (∀ (db : DB) (pid : Nat),
      ((consumePrize db pid).1 = true ↔
        ∃ p ∈ db.prizes, p.id = pid ∧ 0 < p.stock)) ∧
    (∀ (db : DB) (pid : Nat) (i : Nat) (p : PrizeItem),
      db.prizes[i]? = some p →
      (consumePrize db pid).2.prizes[i]? =
        some (if p.id = pid ∧ 0 < p.stock then
          { p with stock := p.stock - 1 } else p)) ∧
    (∀ (db : DB) (calls : List Nat),
      (∀ p ∈ db.prizes, 0 ≤ p.stock) →
      ∀ p ∈ (applyConsumes db calls).prizes, 0 ≤ p.stock) :=
  ⟨fun db pid => consumePrize_fst db pid,
   fun db pid i p h => consumePrize_getElem db pid i p h,
   fun db calls h => applyConsumes_nonneg calls db h⟩

theorem C4_stock_nonneg_witness :
    (consumePrize (⟨[], [], [], [⟨1, "w", "T", 2, 1⟩]⟩ : DB) 1).2.prizes[0]? =
      some ⟨1, "w", "T", 1, 1⟩ :=
  (C4_stock_nonneg.2.1 ⟨[], [], [], [⟨1, "w", "T", 2, 1⟩]⟩ 1 0
    ⟨1, "w", "T", 2, 1⟩ (by decide)).trans (by decide)

/-! ### Claim C5: duplicate admission (corrected) -/

/-- A lottery with capacity 1. -/
def c5lot : LotteryRow :=
  ⟨1, "c", "t", "k", 1, 1, .manual, .autoSend, 86400, false, false, none,
    "w1", false, 0, .active, "op"⟩

def c5db0 : DB := ⟨[c5lot], [], [], []⟩

/-- The state after user "u" joins the capacity-1 lottery. -/
def c5db1 : DB := (addParticipantToLottery c5db0 1 "u").2

/-- C5 counterexample: the claim says a second admission of the same
(lotteryId, userId) pair is rejected *with Duplicate*.  But the transaction
checks capacity before the duplicate check: with `maxParticipants = 1`, user
"u" joins successfully, and "u"'s second admission is rejected by the
capacity branch — the thrown error is "Lottery full or not found", not
"User already participated".  (At the function's public boundary both
collapse to `false`, so no caller can see `Duplicate` either.) -/
theorem C5_counterexample :
    (addParticipantToLottery c5db0 1 "u").1 = true ∧
    admitTx c5db1 1 "u" = .error .fullOrNotFound ∧
    AdmitError.fullOrNotFound ≠ AdmitError.duplicate :=
  ⟨by decide, by rfl, by decide⟩

/-- C5 (amended): a second admission of an already-admitted (lotteryId,
userId) pair is always rejected and inserts no row — with the `Duplicate`
error precisely when the lottery exists and is not yet full (otherwise the
capacity branch fires first) — and hence no two participant rows ever share
a (lotteryId, userId) key. -/
theorem C5_duplicate_admission :
    (∀ (db : DB) (lid : Nat) (u : String),
      db.participants.any (fun p => p.lotteryId == lid && p.userId == u) = true →
      addParticipantToLottery db lid u = (false, db)) ∧
    (∀ (db : DB) (lid : Nat) (u : String) (lot : LotteryRow),
      findLottery db lid = some lot →
      (countParticipants db lid : Int) < lot.maxParticipants →
      db.participants.any (fun p => p.lotteryId == lid && p.userId == u) = true →
      admitTx db lid u = .error .duplicate) ∧
    (∀ (db : DB) (lid : Nat) (u : String),
      (participantKeys db).Nodup →
      (participantKeys (addParticipantToLottery db lid u).2).Nodup) :=
  ⟨fun db lid u h => admit_dup_reject db lid u h,
   fun db lid u lot hf hlt hm => admitTx_dup_reason db lid u lot hf hlt hm,
   fun db lid u h => addParticipant_keys_nodup db lid u h⟩

/-- A lottery with spare capacity whose participant "u" re-joins. -/
def c5wlot : LotteryRow :=
  ⟨1, "c", "t", "k", 5, 1, .manual, .autoSend, 86400, false, false, none,
    "w1", false, 0, .active, "op"⟩

def c5wdb : DB := ⟨[c5wlot], [⟨1, "u"⟩], [], []⟩

theorem C5_duplicate_admission_witness :
    admitTx c5wdb 1 "u" = .error .duplicate :=
  C5_duplicate_admission.2.1 c5wdb 1 "u" c5wlot (by decide) (by decide)
    (by decide)

/-! ### Claim C2: winner-record status transitions (corrected) -/

/-- A claim-mode lottery whose draw leaves two pending records. -/
def c2lot : LotteryRow :=
  ⟨1, "c", "t", "k", 2, 2, .manual, .claim, 3600, false, false, none,
    "w1", false, 0, .active, "op"⟩

def c2db0 : DB := ⟨[c2lot], [⟨1, "a"⟩, ⟨1, "b"⟩], [], [⟨1, "w1", "T", 5, 1⟩]⟩

/-- After the draw at t = 0: two pending records expiring at 3 600 000 ms. -/
def c2db1 : DB :=
  (performLotteryDraw c2db0 c2lot (fun _ => 0) (fun _ => false) 0).2

/-- After the expiry sweep at t = 3 601 000 ms: both records expired. -/
def c2db2 : DB := expireOldClaims c2db1 3601000

/-- C2 counterexample: the claim says a record whose status is `expired`
never changes status again under any of the three operations.  But
`updateWinnerStatusByUser` (the mark-claimed update) has no guard on the
current status: in a state reached by draw-then-sweep, user "a"'s record is
`expired`, and the mark-claimed operation flips it to `sent`. -/
theorem C2_counterexample :
    c2db2.winners[1]? = some ⟨1, "a", "T", .expired, 0, none, 3600000⟩ ∧
    (updateWinnerStatusByUser c2db2 1 "a" .sent 3700000).2.winners[1]? =
      some ⟨1, "a", "T", .sent, 0, some 3700000, 3600000⟩ ∧
    PrizeStatus.expired ≠ PrizeStatus.sent := by decide

/-- C2 (amended): under the three operations (auto-send success update,
manual mark-claimed, expiry sweep), every status change of a record is
`pending → sent`, `pending → expired`, or `expired → sent` (the last because
the mark-claimed/send update carries no status guard); a record whose status
is `sent` keeps status `sent` under every such operation and hence under
every sequence of them. -/
theorem C2_status_transitions :
    (∀ (db : DB) (op : WinnerOp) (i : Nat) (w : WinnerRecord),
      db.winners[i]? = some w →
      ∃ w', (applyWinnerOp db op).winners[i]? = some w' ∧
        (w.status = .sent → w'.status = .sent) ∧
        (w'.status ≠ w.status →
          (w.status = .pending ∧ (w'.status = .sent ∨ w'.status = .expired)) ∨
          (w.status = .expired ∧ w'.status = .sent))) ∧
    (∀ (ops : List WinnerOp) (db : DB) (i : Nat) (w : WinnerRecord),
      db.winners[i]? = some w → w.status = .sent →
      ∃ w', (applyWinnerOps db ops).winners[i]? = some w' ∧
        w'.status = .sent) :=
  ⟨fun db op i w h => applyWinnerOp_spec db op i w h,
   fun ops db i w h hs => applyWinnerOps_sent ops db i w h hs⟩

def c2wdb : DB := ⟨[], [], [⟨1, "a", "T", .sent, 0, none, 5⟩], []⟩

theorem C2_status_transitions_witness :
    ∃ w', (applyWinnerOps c2wdb
        [.sweepOp 99, .markClaimedOp 1 "a" 100]).winners[0]? = some w' ∧
      w'.status = .sent :=
  C2_status_transitions.2 [.sweepOp 99, .markClaimedOp 1 "a" 100] c2wdb 0
    ⟨1, "a", "T", .sent, 0, none, 5⟩ (by decide) (by decide)

/-! ### Claim C8: the expiry sweep's exact frame -/

/-- A claim-mode lottery for the sweep scenario. -/
def c8lot : LotteryRow :=
  ⟨1, "c", "t", "k", 2, 2, .manual, .claim, 3600, false, false, none,
    "w1", false, 0, .active, "op"⟩

def c8db0 : DB := ⟨[c8lot], [⟨1, "a"⟩, ⟨1, "b"⟩], [], [⟨1, "w1", "T", 5, 1⟩]⟩

/-- Draw at t = 0 (claimTimeout 3600 s): two pending records expiring at
3 600 000 ms. -/
def c8db1 : DB :=
  (performLotteryDraw c8db0 c8lot (fun _ => 0) (fun _ => false) 0).2

/-- User "a" marked claimed (sent) at t = 0. -/
def c8db2 : DB := (updateWinnerStatusByUser c8db1 1 "a" .sent 0).2

/-- C8: the expiry sweep changes exactly the pending records whose
`expiresAt` is strictly before `now`, setting only their status to
`expired`; sent records, pending records not yet due, and expired records
are returned entirely unchanged, and no record is added or removed.  The
final conjunct is the spec's Scenario D run end to end: a claim-mode record
created by a draw at t = 0 with `claimTimeout = 3600` is expired by a sweep
at t = 3601 s, while the record marked sent at the same time is untouched. -/
theorem C8_sweep_frame :
    (∀ (db : DB) (now : Int) (i : Nat) (w : WinnerRecord),
      db.winners[i]? = some w → w.status = .sent →
      (expireOldClaims db now).winners[i]? = some w) ∧
    (∀ (db : DB) (now : Int) (i : Nat) (w : WinnerRecord),
      db.winners[i]? = some w → w.status = .pending → now ≤ w.expiresAt →
      (expireOldClaims db now).winners[i]? = some w) ∧
    (∀ (db : DB) (now : Int) (i : Nat) (w : WinnerRecord),
      db.winners[i]? = some w → w.status = .pending → w.expiresAt < now →
      (expireOldClaims db now).winners[i]? =
        some { w with status := .expired }) ∧
    (∀ (db : DB) (now : Int) (i : Nat) (w : WinnerRecord),
      db.winners[i]? = some w → w.status = .expired →
      (expireOldClaims db now).winners[i]? = some w) ∧
    (∀ (db : DB) (now : Int),
      (expireOldClaims db now).winners.length = db.winners.length) ∧
    ((expireOldClaims c8db2 3601000).winners =
      [⟨1, "b", "T", .expired, 0, none, 3600000⟩,
       ⟨1, "a", "T", .sent, 0, some 0, 3600000⟩]) := by
  refine ⟨?_, ?_, ?_, ?_, fun db now => expireOldClaims_length db now, by decide⟩
  · intro db now i w h hs
    rw [expireOldClaims_getElem db now i w h, if_neg (by simp [hs])]
  · intro db now i w h hs hd
    rw [expireOldClaims_getElem db now i w h, if_neg (fun hc => by omega)]
  · intro db now i w h hs hd
    rw [expireOldClaims_getElem db now i w h, if_pos ⟨hs, hd⟩]
  · intro db now i w h hs
    rw [expireOldClaims_getElem db now i w h, if_neg (by simp [hs])]

theorem C8_sweep_frame_witness :
    (expireOldClaims c2wdb 99).winners[0]? =
      some ⟨1, "a", "T", .sent, 0, none, 5⟩ :=
  C8_sweep_frame.1 c2wdb 99 0 ⟨1, "a", "T", .sent, 0, none, 5⟩ (by decide)
    (by decide)

/-! ### Claim C1: the single-draw guard (corrected) -/

/-- A capacity-1 lottery about to be drawn. -/
def c1lot : LotteryRow :=
  ⟨1, "c", "t", "k", 1, 1, .manual, .autoSend, 86400, false, false, none,
    "w1", false, 0, .active, "op"⟩

def c1db0 : DB := ⟨[c1lot], [⟨1, "a"⟩], [], [⟨1, "w1", "T", 5, 1⟩]⟩

/-- The state after the first (successful) draw: the lottery row is
completed and one winner record exists. -/
def c1db1 : DB :=
  (performLotteryDraw c1db0 c1lot (fun _ => 0) (fun _ => false) 0).2

/-- C1 counterexample: the claim says the draw's first step atomically
check-and-sets the status and that a draw on a non-active lottery fails
with an already-completed error, creating no winner records, so at most one
draw ever succeeds.  In fact `performLotteryDraw` never reads the stored
status: after a successful draw (row completed, one record), invoking it
again with the same lottery object reports a drawn winner again and appends
a second winner record. -/
theorem C1_counterexample :
    c1db1.lotteries = [⟨1, "c", "t", "k", 1, 1, .manual, .autoSend, 86400,
      false, false, none, "w1", false, 0, .completed, "op"⟩] ∧
    c1db1.winners.length = 1 ∧
    (performLotteryDraw c1db1 c1lot (fun _ => 0) (fun _ => false) 7).1 =
      .drawn [⟨1, "a"⟩] ∧
    (performLotteryDraw c1db1 c1lot (fun _ => 0) (fun _ => false) 7).2.winners.length
      = 2 := by decide

/-- C1 (amended): the only guard against a second draw lives in the caller:
the `lottery draw` subcommand looks up the chat's *active* lottery and fails
(with the "no lottery in progress" reply, leaving the state unchanged and
creating no winner records) when there is none.  A draw sets the drawn
lottery's status to completed, so when the drawn lottery is the chat's only
lottery, a second `draw` subcommand fails.  `performLotteryDraw` itself
performs no status check-and-set, so a direct second invocation (e.g. from
a stale capacity-trigger racing the manual draw) still succeeds — see the
counterexample. -/
theorem C1_draw_guard :
    (∀ (db : DB) (chat : String) (choice : Nat → Nat)
      (delivered : String → Bool) (now : Int),
      getActiveLottery db chat = none →
      drawCommand db chat choice delivered now = (.noActiveLottery, db)) ∧
    (∀ (db : DB) (lot : LotteryRow) (choice : Nat → Nat)
      (delivered : String → Bool) (now : Int),
      ∀ l ∈ (performLotteryDraw db lot choice delivered now).2.lotteries,
        l.id = lot.id → l.status = .completed) ∧
    (∀ (db : DB) (lot : LotteryRow) (choice : Nat → Nat)
      (delivered : String → Bool) (now : Int) (chat : String)
      (choice2 : Nat → Nat) (delivered2 : String → Bool) (now2 : Int),
      (∀ l ∈ db.lotteries, l.chatId = chat → l.id = lot.id) →
      drawCommand (performLotteryDraw db lot choice delivered now).2 chat
          choice2 delivered2 now2 =
        (.noActiveLottery, (performLotteryDraw db lot choice delivered now).2)) := by
  refine ⟨?_, ?_, ?_⟩
  · intro db chat choice delivered now h
    exact drawCommand_of_none db chat choice delivered now h
  · intro db lot choice delivered now l hl hid
    rw [performLotteryDraw_lotteries] at hl
    simp only [List.mem_map] at hl
    obtain ⟨l0, hl0, heq⟩ := hl
    by_cases h0 : l0.id = lot.id
    · rw [if_pos (by simp [h0])] at heq
      rw [← heq]
    · rw [if_neg (by simp [h0])] at heq
      subst heq
      exact absurd hid h0
  · intro db lot choice delivered now chat choice2 delivered2 now2 honly
    exact drawCommand_of_none _ chat choice2 delivered2 now2
      (performDraw_no_active db lot choice delivered now chat honly)

theorem C1_draw_guard_witness :
    drawCommand c1db1 "c" (fun _ => 0) (fun _ => false) 7 =
      (.noActiveLottery, c1db1) :=
  C1_draw_guard.2.2 c1db0 c1lot (fun _ => 0) (fun _ => false) 0 "c"
    (fun _ => 0) (fun _ => false) 7 (by decide)

/-! ### Claim C9: rejection reasons are distinguishable -/

/-- C9: for a keyword-matching non-bot sender against the chat's active
lottery, the three rejection paths of `handleEnhancedLotteryJoin` produce
pairwise distinct observable reactions and insert no row: an already-joined
sender gets the repeat-join warning reply; an ineligible sender has the join
message silently deleted; a sender bounced by the full-capacity check in the
admission transaction gets no reaction at all (which, among the rejections,
identifies the full lottery). -/
theorem C9_rejection_reasons :
    (∀ (db : DB) (chat text : String) (sender : Sender) (choice : Nat → Nat)
      (delivered : String → Bool) (now : Int) (lot : LotteryRow),
      getActiveLottery db chat = some lot →
      text = lot.keyword →
      sender.bot = false →
      ((getLotteryParticipants db lot.id).any
          (fun p => p.userId == sender.id) = true →
        handleEnhancedLotteryJoin db chat text sender choice delivered now =
          (.warnRepeatJoin, db)) ∧
      ((getLotteryParticipants db lot.id).any
          (fun p => p.userId == sender.id) = false →
        validateUserConditions lot sender = false →
        handleEnhancedLotteryJoin db chat text sender choice delivered now =
          (.deleteMsg, db)) ∧
      (∀ lot2 : LotteryRow,
        (getLotteryParticipants db lot.id).any
          (fun p => p.userId == sender.id) = false →
        validateUserConditions lot sender = true →
        findLottery db lot.id = some lot2 →
        lot2.maxParticipants ≤ (countParticipants db lot.id : Int) →
        handleEnhancedLotteryJoin db chat text sender choice delivered now =
          (.noEffect, db))) ∧
    (JoinEffect.warnRepeatJoin ≠ JoinEffect.deleteMsg ∧
      JoinEffect.warnRepeatJoin ≠ JoinEffect.noEffect ∧
      JoinEffect.deleteMsg ≠ JoinEffect.noEffect) := by
  refine ⟨?_, by decide, by decide, by decide⟩
  intro db chat text sender choice delivered now lot hact htext hbot
  unfold handleEnhancedLotteryJoin
  simp only [hact]
  rw [if_neg (by simp [htext])]
  rw [if_neg (by simp [hbot])]
  refine ⟨?_, ?_, ?_⟩
  · intro hdup
    rw [if_pos hdup]
  · intro hdup hval
    rw [if_neg (by simp [hdup]), if_pos (by simp [hval])]
  · intro lot2 hdup hval hfind hfull
    rw [if_neg (by simp [hdup]), if_neg (by simp [hval])]
    have hadd : addParticipantToLottery db lot.id sender.id = (false, db) :=
      addParticipant_of_error db lot.id sender.id _
        (admitTx_full db lot.id sender.id lot2 hfind hfull)
    rw [hadd]
    rw [if_pos (by rfl)]

/-- A full (capacity 1) lottery, a fresh eligible sender. -/
def c9lot : LotteryRow :=
  ⟨1, "c", "t", "k", 1, 1, .manual, .autoSend, 86400, false, false, none,
    "w1", false, 0, .active, "op"⟩

def c9db : DB := ⟨[c9lot], [⟨1, "a"⟩], [], []⟩

def c9sender : Sender := ⟨"b", false, true, true, true⟩

theorem C9_rejection_reasons_witness :
    handleEnhancedLotteryJoin c9db "c" "k" c9sender (fun _ => 0)
      (fun _ => false) 0 = (.noEffect, c9db) :=
  ((C9_rejection_reasons.1 c9db "c" "k" c9sender (fun _ => 0) (fun _ => false)
      0 c9lot (by decide) (by decide) (by decide)).2.2) c9lot (by decide)
    (by decide) (by decide) (by decide)

/-! ### Claim C10: the create subcommand's hard-coded configuration -/

/-- C10: every lottery the `lottery create` subcommand stores — whatever the
arguments were — has manual mode, AUTO_SEND distribution, an 86400-second
claim timeout, and no avatar / username / channel / bot-allowance
requirement; in particular the `claim` distribution mode is never produced
by this surface. -/
theorem C10_create_fixed_config :
    ∀ (db : DB) (chat senderId title keyword : String)
      (maxP winC : Option Int) (wh : String) (now : Int) (cfg : LotteryRow),
      (createCommand db chat senderId title keyword maxP winC wh now).1 =
        some cfg →
      cfg.mode = .manual ∧ cfg.distributionMode = .autoSend ∧
      cfg.claimTimeout = 86400 ∧ cfg.requireAvatar = false ∧
      cfg.requireUsername = false ∧ cfg.requiredChannel = none ∧
      cfg.allowBots = false ∧ cfg.distributionMode ≠ .claim := by
  intro db chat senderId title keyword maxP winC wh now cfg h
  unfold createCommand at h
  split at h
  · exact absurd h (by simp)
  · rcases maxP with _ | mp <;> rcases winC with _ | wc
    · exact absurd h (by simp)
    · exact absurd h (by simp)
    · exact absurd h (by simp)
    · split at h
      · split at h
        · exact absurd h (by simp)
        · split at h
          · exact absurd h (by simp)
          · split at h
            · exact absurd h (by simp)
            · split at h
              · exact absurd h (by simp)
              · injection h with h3
                subst h3
                exact ⟨rfl, rfl, rfl, rfl, rfl, rfl, rfl,
                  fun hcon => DistributionMode.noConfusion hcon⟩
      · exact absurd
          (‹∀ (a b : Int), some mp = some a → some wc = some b → False›
            mp wc rfl rfl) (fun f => f)

def c10db : DB := ⟨[], [], [], [⟨1, "default", "T", 2, 1⟩]⟩

theorem C10_create_fixed_config_witness :
    (⟨1, "c", "t", "k", 10, 2, .manual, .autoSend, 86400, false, false, none,
        "default", false, 0, .active, "me"⟩ : LotteryRow).mode = .manual ∧
    (⟨1, "c", "t", "k", 10, 2, .manual, .autoSend, 86400, false, false, none,
        "default", false, 0, .active, "me"⟩ : LotteryRow).distributionMode
      = .autoSend ∧
    (⟨1, "c", "t", "k", 10, 2, .manual, .autoSend, 86400, false, false, none,
        "default", false, 0, .active, "me"⟩ : LotteryRow).claimTimeout
      = 86400 ∧
    (⟨1, "c", "t", "k", 10, 2, .manual, .autoSend, 86400, false, false, none,
        "default", false, 0, .active, "me"⟩ : LotteryRow).requireAvatar
      = false ∧
    (⟨1, "c", "t", "k", 10, 2, .manual, .autoSend, 86400, false, false, none,
        "default", false, 0, .active, "me"⟩ : LotteryRow).requireUsername
      = false ∧
    (⟨1, "c", "t", "k", 10, 2, .manual, .autoSend, 86400, false, false, none,
        "default", false, 0, .active, "me"⟩ : LotteryRow).requiredChannel
      = none ∧
    (⟨1, "c", "t", "k", 10, 2, .manual, .autoSend, 86400, false, false, none,
        "default", false, 0, .active, "me"⟩ : LotteryRow).allowBots = false ∧
    (⟨1, "c", "t", "k", 10, 2, .manual, .autoSend, 86400, false, false, none,
        "default", false, 0, .active, "me"⟩ : LotteryRow).distributionMode
      ≠ .claim :=
  C10_create_fixed_config c10db "c" "me" "t" "k" (some 10) (some 2) "default"
    0 _ (by decide)

/-! ### Claim C6: prize selection order, consumption, and fallback -/

/-- A claim-mode lottery over warehouse "w1" holding one item of stock 1. -/
def c6lot : LotteryRow :=
  ⟨1, "c", "t", "k", 5, 2, .manual, .claim, 3600, false, false, none,
    "w1", false, 0, .active, "op"⟩

def c6db0 : DB := ⟨[c6lot], [⟨1, "a"⟩, ⟨1, "b"⟩], [], [⟨1, "w1", "T", 1, 1⟩]⟩

/-- C6: during a distribution pass the next prize is the warehouse's
positive-stock item of least `orderIndex` (none when the warehouse is
exhausted); each per-winner step records that item's text and consumes one
unit of its stock, or records the fallback text and leaves the stock table
untouched.  The final conjunct is the spec's Scenario C run end to end: one
item of stock 1, a draw with two winners — exactly one record carries the
item's text, the other carries the fallback text, and the stock is 0. -/
theorem C6_prize_assignment :
    (∀ (prizes : List PrizeItem) (w : String) (p : PrizeItem),
      getNextAvailablePrize prizes w = some p →
      p ∈ prizes ∧ p.warehouse = w ∧ 0 < p.stock ∧
      ∀ q ∈ prizes, q.warehouse = w → 0 < q.stock →
        p.orderIndex ≤ q.orderIndex) ∧
    (∀ (prizes : List PrizeItem) (w : String),
      getNextAvailablePrize prizes w = none →
      ∀ q ∈ prizes, q.warehouse = w → ¬ 0 < q.stock) ∧
    (∀ (lot : LotteryRow) (now : Int) (db : DB) (u : String),
      (distributeStep lot now db u).winners = db.winners ++
        [⟨lot.id, u, assignedText db lot, .pending, now, none,
          now + lot.claimTimeout * 1000⟩]) ∧
    (∀ (lot : LotteryRow) (now : Int) (db : DB) (u : String),
      getNextAvailablePrize db.prizes lot.warehouse = none →
      assignedText db lot = fallbackPrizeText ∧
      (distributeStep lot now db u).prizes = db.prizes) ∧
    (∀ (lot : LotteryRow) (now : Int) (db : DB) (u : String) (p : PrizeItem)
      (i : Nat) (q : PrizeItem),
      getNextAvailablePrize db.prizes lot.warehouse = some p →
      db.prizes[i]? = some q →
      assignedText db lot = p.text ∧
      (distributeStep lot now db u).prizes[i]? =
        some (if q.id = p.id ∧ 0 < q.stock then
          { q with stock := q.stock - 1 } else q)) ∧
    ((performLotteryDraw c6db0 c6lot (fun _ => 0) (fun _ => false) 0).2.winners =
        [⟨1, "b", "T", .pending, 0, none, 3600000⟩,
         ⟨1, "a", fallbackPrizeText, .pending, 0, none, 3600000⟩] ∧
      (performLotteryDraw c6db0 c6lot (fun _ => 0) (fun _ => false) 0).2.prizes =
        [⟨1, "w1", "T", 0, 1⟩]) := by
  refine ⟨fun prizes w p h => getNextAvailablePrize_some prizes w p h,
    fun prizes w h => getNextAvailablePrize_none prizes w h,
    fun lot now db u => distributeStep_winners lot now db u,
    ?_, ?_, by decide, by decide⟩
  · intro lot now db u h
    refine ⟨by unfold assignedText; rw [h], ?_⟩
    rw [distributeStep_prizes, h]
  · intro lot now db u p i q hp hq
    refine ⟨by unfold assignedText; rw [hp], ?_⟩
    rw [distributeStep_prizes, hp]
    exact consumePrize_getElem db p.id i q hq

theorem C6_prize_assignment_witness :
    (⟨2, "w1", "U", 1, 0⟩ : PrizeItem) ∈
        [(⟨1, "w1", "T", 1, 1⟩ : PrizeItem), ⟨2, "w1", "U", 1, 0⟩] ∧
      (⟨2, "w1", "U", 1, 0⟩ : PrizeItem).warehouse = "w1" ∧
      0 < (⟨2, "w1", "U", 1, 0⟩ : PrizeItem).stock ∧
      ∀ q ∈ [(⟨1, "w1", "T", 1, 1⟩ : PrizeItem), ⟨2, "w1", "U", 1, 0⟩],
        q.warehouse = "w1" → 0 < q.stock →
        (⟨2, "w1", "U", 1, 0⟩ : PrizeItem).orderIndex ≤ q.orderIndex :=
  C6_prize_assignment.1 [⟨1, "w1", "T", 1, 1⟩, ⟨2, "w1", "U", 1, 0⟩] "w1"
    ⟨2, "w1", "U", 1, 0⟩ (by decide)

/-! ### Claim C7: winner count of a draw -/

/-- C7: a draw over n admitted participants with n = 0 reports the empty
outcome, creates no winner records, consumes no prizes, and still marks the
lottery completed; with n ≥ 1 (participant user ids distinct, positive
configured winner count) it reports a drawn winner list of length
min(winnerCount, n) and appends exactly that many winner records — all for
this lottery, with pairwise distinct user ids drawn from the participants —
and marks the lottery completed. -/
theorem C7_draw_winner_count :
    ∀ (db : DB) (lot : LotteryRow) (choice : Nat → Nat)
      (delivered : String → Bool) (now : Int),
      (getLotteryParticipants db lot.id = [] →
        (performLotteryDraw db lot choice delivered now).1 = .empty ∧
        (performLotteryDraw db lot choice delivered now).2.winners =
          db.winners ∧
        (performLotteryDraw db lot choice delivered now).2.prizes =
          db.prizes ∧
        ∀ l ∈ (performLotteryDraw db lot choice delivered now).2.lotteries,
          l.id = lot.id → l.status = .completed) ∧
      (getLotteryParticipants db lot.id ≠ [] →
        ((getLotteryParticipants db lot.id).map (fun p => p.userId)).Nodup →
        0 < lot.winnerCount →
        ∃ ws, (performLotteryDraw db lot choice delivered now).1 =
            .drawn ws ∧
          (ws.length : Int) = min lot.winnerCount
            ((getLotteryParticipants db lot.id).length : Int) ∧
          (performLotteryDraw db lot choice delivered now).2.winners.length =
            db.winners.length + ws.length ∧
          (((performLotteryDraw db lot choice delivered now).2.winners.drop
              db.winners.length).map (fun w => w.userId)).Nodup ∧
          (∀ w ∈ (performLotteryDraw db lot choice delivered now).2.winners.drop
              db.winners.length,
            w.lotteryId = lot.id ∧
            w.userId ∈ (getLotteryParticipants db lot.id).map
              (fun p => p.userId)) ∧
          ∀ l ∈ (performLotteryDraw db lot choice delivered now).2.lotteries,
            l.id = lot.id → l.status = .completed) := by
  intro db lot choice delivered now
  constructor
  · intro hps
    have hempty : (getLotteryParticipants db lot.id).isEmpty = true :=
      List.isEmpty_iff.mpr hps
    unfold performLotteryDraw
    rw [if_pos hempty]
    exact ⟨rfl, rfl, rfl, completeLottery_status db lot.id⟩
  · intro hps hnodup hwc
    have hemptyf : ¬ ((getLotteryParticipants db lot.id).isEmpty = true) := by
      rw [List.isEmpty_iff]
      exact hps
    unfold performLotteryDraw
    rw [if_neg hemptyf]
    set ps := getLotteryParticipants db lot.id with hpseq
    set k : Int := min lot.winnerCount (ps.length : Int) with hkeq
    set W := jsSliceTo (fisherYates choice ps) k with hWeq0
    set db2 := (if lot.distributionMode == DistributionMode.autoSend then
        autoSendPass (distributePrizes db lot W now) lot W delivered now
      else distributePrizes db lot W now) with hdb2eq
    have h0k : (0 : Int) ≤ k := by
      rw [hkeq]
      exact le_min hwc.le (Int.natCast_nonneg _)
    have hW : W = (fisherYates choice ps).take k.toNat := by
      rw [hWeq0]
      unfold jsSliceTo
      rw [if_pos h0k]
    have hP : db2.winners.map (fun w => (w.lotteryId, w.userId)) =
        db.winners.map (fun w => (w.lotteryId, w.userId)) ++
          W.map (fun p => (lot.id, p.userId)) := by
      rw [hdb2eq]
      exact drawDb_winners_proj db lot W delivered now
    have hdp : (db2.winners.drop db.winners.length).map
        (fun w => (w.lotteryId, w.userId)) =
        W.map (fun p => (lot.id, p.userId)) := by
      rw [List.map_drop, hP,
        show db.winners.length =
          (db.winners.map (fun w => (w.lotteryId, w.userId))).length from
          (List.length_map _ _).symm]
      exact List.drop_left _ _
    have huid : (db2.winners.drop db.winners.length).map (fun w => w.userId) =
        W.map (fun p => p.userId) := by
      have h1 : (db2.winners.drop db.winners.length).map (fun w => w.userId) =
          ((db2.winners.drop db.winners.length).map
            (fun w => (w.lotteryId, w.userId))).map (fun t => t.2) := by
        rw [List.map_map]
        rfl
      rw [h1, hdp, List.map_map]
      rfl
    have hWsub : W.Sublist (fisherYates choice ps) := by
      rw [hW]
      exact List.take_sublist _ _
    refine ⟨W, rfl, ?_, ?_, ?_, ?_, ?_⟩
    · rw [hW, List.length_take, fisherYates_length]
      have hkn : k.toNat ≤ ps.length := Int.toNat_le.mpr (by
        rw [hkeq]
        exact min_le_right _ _)
      rw [min_eq_left hkn, Int.toNat_of_nonneg h0k]
    · dsimp only
      rw [(completeLottery_frame db2 lot.id).1]
      have hlen := congrArg List.length hP
      simp only [List.length_map, List.length_append] at hlen
      exact hlen
    · dsimp only
      rw [(completeLottery_frame db2 lot.id).1, huid]
      have hperm : ((fisherYates choice ps).map (fun p => p.userId)).Perm
          (ps.map (fun p => p.userId)) := (fisherYates_perm choice ps).map _
      exact List.Nodup.sublist (hWsub.map _) (hperm.symm.nodup hnodup)
    · intro w hw
      dsimp only at hw
      rw [(completeLottery_frame db2 lot.id).1] at hw
      have hmm : (w.lotteryId, w.userId) ∈ (db2.winners.drop
          db.winners.length).map (fun w => (w.lotteryId, w.userId)) :=
        List.mem_map_of_mem _ hw
      rw [hdp] at hmm
      obtain ⟨p, hpW, hpe⟩ := List.mem_map.mp hmm
      rw [Prod.mk.injEq] at hpe
      refine ⟨hpe.1.symm, ?_⟩
      rw [← hpe.2]
      exact List.mem_map_of_mem _
        ((fisherYates_perm choice ps).subset (hWsub.subset hpW))
    · dsimp only
      exact completeLottery_status db2 lot.id

/-- Three participants, winner count 2. -/
def c7wlot : LotteryRow :=
  ⟨1, "c", "t", "k", 5, 2, .manual, .claim, 3600, false, false, none,
    "w1", false, 0, .active, "op"⟩

def c7wdb : DB :=
  ⟨[c7wlot], [⟨1, "a"⟩, ⟨1, "b"⟩, ⟨1, "x"⟩], [], [⟨1, "w1", "T", 5, 1⟩]⟩

theorem C7_draw_winner_count_witness :
    ∃ ws, (performLotteryDraw c7wdb c7wlot (fun _ => 0) (fun _ => false) 0).1 =
        .drawn ws ∧
      (ws.length : Int) = min c7wlot.winnerCount
        ((getLotteryParticipants c7wdb c7wlot.id).length : Int) ∧
      (performLotteryDraw c7wdb c7wlot (fun _ => 0) (fun _ => false) 0).2.winners.length =
        c7wdb.winners.length + ws.length ∧
      (((performLotteryDraw c7wdb c7wlot (fun _ => 0) (fun _ => false) 0).2.winners.drop
          c7wdb.winners.length).map (fun w => w.userId)).Nodup ∧
      (∀ w ∈ (performLotteryDraw c7wdb c7wlot (fun _ => 0) (fun _ => false) 0).2.winners.drop
          c7wdb.winners.length,
        w.lotteryId = c7wlot.id ∧
        w.userId ∈ (getLotteryParticipants c7wdb c7wlot.id).map
          (fun p => p.userId)) ∧
      ∀ l ∈ (performLotteryDraw c7wdb c7wlot (fun _ => 0) (fun _ => false) 0).2.lotteries,
        l.id = c7wlot.id → l.status = .completed :=
  (C7_draw_winner_count c7wdb c7wlot (fun _ => 0) (fun _ => false) 0).2
    (by decide) (by decide) (by decide)

end Shift
